import Mathlib

/-!
Verification of `file_integrity_checker.py`: a shallow embedding of the
`FileIntegrityChecker` class (SHA-256 hashing, baseline creation, integrity
verification) together with proofs of the specification's claims.
-/

set_option maxRecDepth 8000

namespace FIC

/-! ## SHA-256 (model of `hashlib.sha256`, FIPS 180-4)

Messages are byte lists (`List Nat`, each byte `< 256`); words are `Nat`
taken modulo `2^32`.  `sha256hex` returns the lowercase hexadecimal digest,
as `hashlib.sha256(...).hexdigest()` does. -/

/-- `2^32`, the word modulus of SHA-256. -/
def M32 : Nat := 4294967296

/-- Right rotation of a 32-bit word by `n` bits. -/
def rotr (n x : Nat) : Nat := ((x >>> n) ||| (x <<< (32 - n))) % M32

/-- SHA-256 `Ch` function. -/
def ch (e f g : Nat) : Nat := (e &&& f) ^^^ ((e ^^^ 4294967295) &&& g)

/-- SHA-256 `Maj` function. -/
def maj (a b c : Nat) : Nat := (a &&& b) ^^^ (a &&& c) ^^^ (b &&& c)

/-- SHA-256 big sigma 0. -/
def bsig0 (x : Nat) : Nat := rotr 2 x ^^^ rotr 13 x ^^^ rotr 22 x

/-- SHA-256 big sigma 1. -/
def bsig1 (x : Nat) : Nat := rotr 6 x ^^^ rotr 11 x ^^^ rotr 25 x

/-- SHA-256 small sigma 0. -/
def ssig0 (x : Nat) : Nat := rotr 7 x ^^^ rotr 18 x ^^^ (x >>> 3)

/-- SHA-256 small sigma 1. -/
def ssig1 (x : Nat) : Nat := rotr 17 x ^^^ rotr 19 x ^^^ (x >>> 10)

/-- The 64 SHA-256 round constants (FIPS 180-4 §4.2.2, here in decimal). -/
def k256 : List Nat :=
  [1116352408, 1899447441, 3049323471, 3921009573, 961987163, 1508970993,
   2453635748, 2870763221, 3624381080, 310598401, 607225278, 1426881987,
   1925078388, 2162078206, 2614888103, 3248222580, 3835390401, 4022224774,
   264347078, 604807628, 770255983, 1249150122, 1555081692, 1996064986,
   2554220882, 2821834349, 2952996808, 3210313671, 3336571891, 3584528711,
   113926993, 338241895, 666307205, 773529912, 1294757372, 1396182291,
   1695183700, 1986661051, 2177026350, 2456956037, 2730485921, 2820302411,
   3259730800, 3345764771, 3516065817, 3600352804, 4094571909, 275423344,
   430227734, 506948616, 659060556, 883997877, 958139571, 1322822218,
   1537002063, 1747873779, 1955562222, 2024104815, 2227730452, 2361852424,
   2428436474, 2756734187, 3204031479, 3329325298]

/-- The initial SHA-256 hash state (FIPS 180-4 §5.3.3, here in decimal). -/
def h256 : List Nat :=
  [1779033703, 3144134277, 1013904242, 2773480762,
   1359893119, 2600822924, 528734635, 1541459225]

/-- SHA-256 padding: append `0x80`, zeros to 56 mod 64 bytes, then the
bit length as 8 big-endian bytes. -/
def pad (msg : List Nat) : List Nat :=
  let L := msg.length
  let z := (119 - L % 64) % 64
  let lenBytes := (List.range 8).map (fun i => ((8 * L) >>> (56 - 8 * i)) % 256)
  msg ++ 0x80 :: List.replicate z 0 ++ lenBytes

/-- Assemble a byte list into big-endian 32-bit words. -/
def toWords : List Nat → List Nat
  | b0 :: b1 :: b2 :: b3 :: rest =>
      (((b0 * 256 + b1) * 256 + b2) * 256 + b3) :: toWords rest
  | _ => []

/-- Extend the 16 block words into the 64-entry message schedule. -/
def extendW (ws : List Nat) : Array Nat :=
  (List.range 48).foldl
    (fun w i =>
      w.push ((ssig1 (w.getD (i + 14) 0) + w.getD (i + 9) 0 +
               ssig0 (w.getD (i + 1) 0) + w.getD (i + 0) 0) % M32))
    ws.toArray

/-- One SHA-256 compression round over an 8-word state tuple. -/
def round (w : Array Nat) (st : Nat × Nat × Nat × Nat × Nat × Nat × Nat × Nat)
    (i : Nat) : Nat × Nat × Nat × Nat × Nat × Nat × Nat × Nat :=
  let (a, b, c, d, e, f, g, hh) := st
  let t1 := (hh + bsig1 e + ch e f g + k256.getD i 0 + w.getD i 0) % M32
  let t2 := (bsig0 a + maj a b c) % M32
  ((t1 + t2) % M32, a, b, c, (d + t1) % M32, e, f, g)

/-- Compress one 64-byte block (given as 16 words) into the hash state. -/
def compress (h : List Nat) (blockWords : List Nat) : List Nat :=
  let w := extendW blockWords
  let h0 := h.getD 0 0
  let h1 := h.getD 1 0
  let h2 := h.getD 2 0
  let h3 := h.getD 3 0
  let h4 := h.getD 4 0
  let h5 := h.getD 5 0
  let h6 := h.getD 6 0
  let h7 := h.getD 7 0
  let (a, b, c, d, e, f, g, hh) :=
    (List.range 64).foldl (round w) (h0, h1, h2, h3, h4, h5, h6, h7)
  [(h0 + a) % M32, (h1 + b) % M32, (h2 + c) % M32, (h3 + d) % M32,
   (h4 + e) % M32, (h5 + f) % M32, (h6 + g) % M32, (h7 + hh) % M32]

/-- The eight 32-bit words of the SHA-256 digest of a byte message. -/
def sha256words (msg : List Nat) : List Nat :=
  let p := pad msg
  (List.range (p.length / 64)).foldl
    (fun h i => compress h (toWords ((p.drop (64 * i)).take 64))) h256

/-- Lowercase hexadecimal digit for `n < 16`. -/
def hexDigit (n : Nat) : Char :=
  if n < 10 then Char.ofNat (48 + n) else Char.ofNat (87 + n)

/-- A 32-bit word as 8 lowercase hex characters, big-endian. -/
def wordHex (w : Nat) : List Char :=
  (List.range 8).map (fun i => hexDigit ((w >>> (28 - 4 * i)) % 16))

/-- Lowercase hexadecimal SHA-256 digest of a byte message: the model of
`hashlib.sha256(data).hexdigest()`. -/
def sha256hex (msg : List Nat) : String :=
  String.mk ((sha256words msg).foldr (fun w acc => wordHex w ++ acc) [])

/-! ## Filesystem model

A directory tree is a finite association list from relative paths to nodes.
A node is either a regular file (with content bytes and a readability flag:
an unreadable file is one whose `open` raises `IOError`) or a directory.
The whole filesystem maps directory paths (as passed to `create_baseline`
or stored in the baseline's `directory` field) to their trees. -/

/-- A filesystem node reachable under a root: a regular file with byte
content and a readability flag, or a directory. -/
inductive Entry : Type
  | file (content : List Nat) (readable : Bool)
  | dir
deriving DecidableEq, Repr

/-- A directory tree: relative path ↦ node. -/
abbrev Tree := List (String × Entry)

/-- The filesystem: existing directory path ↦ its tree.  A path not in the
list is not a directory. -/
abbrev FS := List (String × Tree)

/-- Association-list lookup on string keys (first match wins, as a real
filesystem has at most one node per path). -/
def lookupKey {α : Type} (p : String) : List (String × α) → Option α
  | [] => none
  | (k, v) :: rest => if k = p then some v else lookupKey p rest

/-- The tree rooted at directory `d`, when `d` is a directory. -/
def lookupDir (fs : FS) (d : String) : Option Tree := lookupKey d fs

/-- Model of `os.path.isdir`: the empty path is never a directory. -/
def isdir (fs : FS) (d : String) : Bool :=
  !(d == "") && (lookupDir fs d).isSome

/-- The node at relative path `p` under tree `t`. -/
def lookupEntry (t : Tree) (p : String) : Option Entry := lookupKey p t

/-- Model of `os.path.exists(os.path.join(directory, relative_path))`:
true for files and directories alike. -/
def pathExists (t : Tree) (p : String) : Bool := (lookupEntry t p).isSome

/-- Model of the `os.walk` loop: all regular files under the tree, in tree
order, with their content and readability. -/
def walkFiles (t : Tree) : List (String × List Nat × Bool) :=
  t.filterMap (fun pe =>
    match pe.2 with
    | .file c r => some (pe.1, c, r)
    | .dir => none)

/-- Model of `FileIntegrityChecker.calculate_hash`: opening the path and
streaming it through SHA-256.  Returns `none` (Python `None`) when the
open or read raises `IOError` — for a missing path, a directory
(`IsADirectoryError ⊆ OSError = IOError`), or an unreadable file — after
printing an error message; otherwise the lowercase hex digest. -/
def calculate_hash (t : Tree) (p : String) : Option String :=
  match lookupEntry t p with
  | some (.file c true) => some (sha256hex c)
  | _ => none

/-! ## Baseline snapshot model

The shape `json.dump` writes: `directory`, `timestamp`, a `files` map from
relative path to `{hash, last_checked}`, and (after a verify) a top-level
`last_checked`. -/

/-- One entry of the baseline's `files` map. -/
structure FileRecord : Type where
  hash : String
  last_checked : String
deriving DecidableEq, Repr

/-- A well-formed baseline snapshot as produced by `create_baseline`. -/
structure Snapshot : Type where
  directory : String
  timestamp : String
  files : List (String × FileRecord)
  last_checked : Option String
deriving DecidableEq, Repr

/-- `self.baseline_data` restricted to the states the checker itself
produces: the empty dict `{}` (missing or unparseable baseline file) or a
well-formed snapshot.  `empty` is Python-falsy; a snapshot dict always has
keys, hence is truthy. -/
inductive BaselineData : Type
  | empty
  | snap (s : Snapshot)
deriving DecidableEq, Repr

/-- The dictionary `verify_integrity` returns on completion. -/
structure VerifyResult : Type where
  changed_files : List String
  new_files : List String
  missing_files : List String
deriving DecidableEq, Repr

/-- The two early-abort conditions of `verify_integrity`, distinguished by
their console messages. -/
inductive VerifyErr : Type
  | noBaseline
  | invalidDirectory (d : String)
deriving DecidableEq, Repr

/-- Observable outcome of one `verify_integrity` call: which abort message
was printed (if any), what was written to the baseline file (if anything),
the returned value (`none` models Python's `return None`), and the final
in-memory `self.baseline_data`. -/
structure VerifyOutput : Type where
  error : Option VerifyErr
  saved : Option Snapshot
  result : Option VerifyResult
  finalData : BaselineData
deriving DecidableEq, Repr

/-- Observable outcome of one `create_baseline` call: whether the invalid
directory error was printed, what was written to the baseline file, and
the final in-memory `self.baseline_data`. -/
structure CreateOutput : Type where
  error : Bool
  saved : Option Snapshot
  finalData : BaselineData
deriving DecidableEq, Repr

/-! ## The two operations -/

/-- The walk-and-hash loop of `create_baseline`: one entry per walked file
whose digest computation succeeded (`if file_hash:`), in walk order, each
with `last_checked = now`. -/
def baselineEntries (t : Tree) (now : String) :
    List (String × FileRecord) :=
  (walkFiles t).filterMap (fun f =>
    match calculate_hash t f.1 with
    | some h => some (f.1, (⟨h, now⟩ : FileRecord))
    | none => none)

/-- Model of `FileIntegrityChecker.create_baseline(directory)`: abort if
`directory` is not a directory; otherwise walk the tree, hash every file,
keep the entries whose hash succeeded (`if file_hash:`), and save the
fresh snapshot.  All `datetime.now()` calls of the run are modelled by the
single opaque string `now`. -/
def create_baseline (fs : FS) (bd : BaselineData) (dir now : String) :
    CreateOutput :=
  if isdir fs dir then
    let t := (lookupDir fs dir).getD []
    let s : Snapshot := ⟨dir, now, baselineEntries t now, none⟩
    ⟨false, some s, .snap s⟩
  else
    ⟨true, none, bd⟩

/-- The first loop of `verify_integrity` over the baseline entries:
returns `(changed_files, missing_files)` in entry order.  An entry whose
path does not exist goes to missing; otherwise its current digest is
compared with the stored one (`current_hash != file_data["hash"]`, where a
`None` digest never equals a hex string). -/
def classifyBaseline (t : Tree) : List (String × FileRecord) →
    List String × List String
  | [] => ([], [])
  | (p, fd) :: rest =>
    let (cs, ms) := classifyBaseline t rest
    if !pathExists t p then (cs, p :: ms)
    else if calculate_hash t p ≠ some fd.hash then (p :: cs, ms)
    else (cs, ms)

/-- The second loop of `verify_integrity`: walk the current tree and
collect every relative path not among the baseline's keys. -/
def findNewFiles (t : Tree) (baseline_files : List (String × FileRecord)) :
    List String :=
  (walkFiles t).filterMap (fun f =>
    if (lookupKey f.1 baseline_files).isSome then none else some f.1)

/-- Model of `FileIntegrityChecker.verify_integrity()`: abort with the
no-baseline message if `baseline_data` is falsy; abort with the
invalid-directory message if the recorded directory is falsy or not a
directory; otherwise classify baseline entries into changed/missing and
on-disk files into new, set the top-level `last_checked`, save, and return
the three lists. -/
def verify_integrity (fs : FS) (bd : BaselineData) (now : String) :
    VerifyOutput :=
  match bd with
  | .empty => ⟨some .noBaseline, none, none, bd⟩
  | .snap s =>
    if s.directory == "" || !isdir fs s.directory then
      ⟨some (.invalidDirectory s.directory), none, none, bd⟩
    else
      let t := (lookupDir fs s.directory).getD []
      let cm := classifyBaseline t s.files
      let changed_files := cm.1
      let missing_files := cm.2
      let new_files := findNewFiles t s.files
      let s' : Snapshot := { s with last_checked := some now }
      ⟨none, some s', some ⟨changed_files, new_files, missing_files⟩, .snap s'⟩

/-! ## Arbitrary-JSON baseline layer

`load_baseline` returns whatever `json.load` parsed, of any shape.
`verifyJson` re-traces `verify_integrity` over an arbitrary JSON value,
recording which Python operations raise (`.get` on a non-dict is an
`AttributeError`, `[...]` on a dict without the key is a `KeyError`, and
so on).  `Except.error` models an uncaught exception escaping the call. -/

/-- A parsed JSON value, as `json.load` can return. -/
inductive JsonVal : Type
  | null
  | bool (b : Bool)
  | num (n : Int)
  | str (s : String)
  | arr (elems : List JsonVal)
  | obj (fields : List (String × JsonVal))

/-- The uncaught Python exceptions our model distinguishes. -/
inductive PyErr : Type
  | attributeError
  | keyError
  | typeError
deriving DecidableEq, Repr

/-- Python truthiness of a JSON value (`if not self.baseline_data`). -/
def truthy : JsonVal → Bool
  | .null => false
  | .bool b => b
  | .num n => n != 0
  | .str s => !(s == "")
  | .arr l => !l.isEmpty
  | .obj f => !f.isEmpty

/-- `v.get(k)`: dict method returning the value or `None`; any non-dict
raises `AttributeError`. -/
def jsonGet (v : JsonVal) (k : String) : Except PyErr JsonVal :=
  match v with
  | .obj fields => .ok ((lookupKey k fields).getD .null)
  | _ => .error .attributeError

/-- `v[k]` with a string key: `KeyError` on a dict missing the key,
`TypeError` on every non-dict. -/
def jsonIndex (v : JsonVal) (k : String) : Except PyErr JsonVal :=
  match v with
  | .obj fields =>
    match lookupKey k fields with
    | some x => .ok x
    | none => .error .keyError
  | _ => .error .typeError

/-- Dict assignment `v[k] = x`: replace the existing binding in place or
append a new one (Python dict insertion order). -/
def setKey (k : String) (x : JsonVal) : List (String × JsonVal) →
    List (String × JsonVal)
  | [] => [(k, x)]
  | (k0, v0) :: rest =>
    if k0 = k then (k, x) :: rest else (k0, v0) :: setKey k x rest

/-- `os.path.isdir` on a JSON value: real check on strings; numbers and
booleans are file-descriptor `stat` calls that never name a directory
(`os.path.isdir` swallows the `OSError`); lists, dicts and `None` raise
`TypeError`. -/
def isdirJson (fs : FS) (v : JsonVal) : Except PyErr Bool :=
  match v with
  | .str s => .ok (isdir fs s)
  | .num _ => .ok false
  | .bool _ => .ok false
  | _ => .error .typeError

/-- `current_hash != file_data["hash"]` where `current_hash` is `None` or
a hex string and the stored value is arbitrary JSON: `None` equals only
`None`, and a string equals only the same string. -/
def pyHashNeq (current : Option String) (stored : JsonVal) : Bool :=
  match current, stored with
  | none, .null => false
  | none, _ => true
  | some h, .str s2 => !(h == s2)
  | some _, _ => true

/-- The two abort messages of `verify_integrity`, JSON layer. -/
inductive JVerifyErr : Type
  | noBaseline
  | invalidDirectory
deriving DecidableEq, Repr

/-- Outcome of a `verify_integrity` call that did not raise, JSON layer. -/
structure JsonVerifyOutput : Type where
  error : Option JVerifyErr
  saved : Option JsonVal
  result : Option VerifyResult
  finalData : JsonVal

/-- The baseline-entry loop over arbitrary JSON entry values: an existing
path forces the `file_data["hash"]` lookup, which may raise. -/
def classifyJson (t : Tree) : List (String × JsonVal) →
    Except PyErr (List String × List String)
  | [] => .ok ([], [])
  | (p, fdata) :: rest =>
    if !pathExists t p then do
      let (cs, ms) ← classifyJson t rest
      return (cs, p :: ms)
    else do
      let stored ← jsonIndex fdata "hash"
      let changedHere := pyHashNeq (calculate_hash t p) stored
      let (cs, ms) ← classifyJson t rest
      return (if changedHere then (p :: cs, ms) else (cs, ms))

/-- Model of `FileIntegrityChecker.load_baseline`: a missing file and an
unparseable file both yield the empty dict (the latter after an error
message); otherwise whatever JSON the file held. -/
inductive BaselineFile : Type
  | missing
  | corrupt
  | content (v : JsonVal)

/-- See `BaselineFile`. -/
def load_baseline : BaselineFile → JsonVal
  | .missing => .obj []
  | .corrupt => .obj []
  | .content v => v

/-- Model of `verify_integrity` run on an arbitrary loaded JSON value,
tracking every operation that can raise an uncaught exception. -/
def verifyJson (fs : FS) (bd : JsonVal) (now : String) :
    Except PyErr JsonVerifyOutput :=
  if !truthy bd then .ok ⟨some .noBaseline, none, none, bd⟩
  else do
    let directory ← jsonGet bd "directory"
    if !truthy directory then
      return ⟨some .invalidDirectory, none, none, bd⟩
    else
      let isd ← isdirJson fs directory
      if !isd then return ⟨some .invalidDirectory, none, none, bd⟩
      else
        let baseline_files ← jsonIndex bd "files"
        match directory, baseline_files, bd with
        | .str d, .obj bfs, .obj bdFields =>
          let t := (lookupDir fs d).getD []
          let (changed_files, missing_files) ← classifyJson t bfs
          let new_files := (walkFiles t).filterMap (fun f =>
            if (lookupKey f.1 bfs).isSome then none else some f.1)
          let bd' : JsonVal := .obj (setKey "last_checked" (.str now) bdFields)
          return ⟨none, some bd', some ⟨changed_files, new_files, missing_files⟩, bd'⟩
        | _, .obj _, _ => .error .typeError
        | _, _, _ => .error .attributeError

/-! ## Derived predicates used to state the claims -/

/-- A path counts as unchanged for stored entries `bf`: it has a baseline
record, exists on disk, and its current digest equals the stored one. -/
def isUnchanged (t : Tree) (bf : List (String × FileRecord)) (p : String) :
    Bool :=
  match lookupKey p bf with
  | some fd => pathExists t p && ((calculate_hash t p) == some fd.hash)
  | none => false

/-- Exactly one of three propositions holds. -/
def ExactlyOne (a b c : Prop) : Prop :=
  (a ∨ b ∨ c) ∧ ¬(a ∧ b) ∧ ¬(a ∧ c) ∧ ¬(b ∧ c)

/-! ## Concrete example data (for evaluating the theorems) -/

/-- The spec's example tree: `a.txt` containing "hello" and `sub/b.txt`
containing "world", both readable. -/
def helloWorldTree : Tree :=
  [("a.txt", .file [104, 101, 108, 108, 111] true),
   ("sub/b.txt", .file [119, 111, 114, 108, 100] true)]

/-- A filesystem whose only directory is `d`, holding `helloWorldTree`. -/
def helloWorldFS : FS := [("d", helloWorldTree)]

/-- A tree with one unreadable file `u` and one directory entry `sub`. -/
def mixedTree : Tree := [("u", .file [1] false), ("sub", .dir)]

/-- A filesystem whose only directory is `d`, holding `mixedTree`. -/
def mixedFS : FS := [("d", mixedTree)]

/-- A tree exercising all classifications: `a` unchanged, `u` unreadable,
`n` new, `sub` a directory. -/
def partTree : Tree :=
  [("a", .file [104] true), ("u", .file [1] false),
   ("n", .file [] true), ("sub", .dir)]

/-- A filesystem whose only directory is `d`, holding `partTree`. -/
def partFS : FS := [("d", partTree)]

/-- A snapshot of `partTree` before `n` appeared and after `gone`
vanished: `a` matches, `u` became unreadable, `gone` is missing. -/
def partSnap : Snapshot :=
  ⟨"d", "t0",
   [("a", ⟨sha256hex [104], "t0"⟩), ("u", ⟨"x", "t0"⟩),
    ("gone", ⟨"y", "t0"⟩)], none⟩

/-! ## Association-list lemmas -/

theorem lookupKey_isSome_iff {α : Type} (p : String)
    (l : List (String × α)) :
    (lookupKey p l).isSome = true ↔ ∃ v, (p, v) ∈ l := by
  induction l with
  | nil => simp [lookupKey]
  | cons kv rest ih =>
    obtain ⟨k, v⟩ := kv
    by_cases h : k = p
    · subst h
      simp [lookupKey]
    · simp only [lookupKey, if_neg h, ih, List.mem_cons, Prod.mk.injEq]
      constructor
      · rintro ⟨w, hw⟩
        exact ⟨w, Or.inr hw⟩
      · rintro ⟨w, (⟨hp, _⟩ | hw)⟩
        · exact absurd hp.symm h
        · exact ⟨w, hw⟩

theorem lookupKey_isSome_of_mem {α : Type} {p : String} {v : α}
    {l : List (String × α)} (h : (p, v) ∈ l) :
    (lookupKey p l).isSome = true :=
  (lookupKey_isSome_iff p l).mpr ⟨v, h⟩

theorem mem_of_lookupKey_eq_some {α : Type} {p : String} {v : α}
    {l : List (String × α)} (h : lookupKey p l = some v) : (p, v) ∈ l := by
  induction l with
  | nil => simp [lookupKey] at h
  | cons kv rest ih =>
    obtain ⟨k, w⟩ := kv
    by_cases hk : k = p
    · subst hk
      simp [lookupKey] at h
      simp [h]
    · simp only [lookupKey, if_neg hk] at h
      exact List.mem_cons_of_mem _ (ih h)

theorem lookupKey_eq_some_of_mem_nodup {α : Type} {p : String} {v : α}
    {l : List (String × α)} (hn : (l.map Prod.fst).Nodup)
    (h : (p, v) ∈ l) : lookupKey p l = some v := by
  induction l with
  | nil => simp at h
  | cons kv rest ih =>
    obtain ⟨k, w⟩ := kv
    simp only [List.map_cons, List.nodup_cons] at hn
    rcases List.mem_cons.mp h with heq | hmem
    · injection heq with h1 h2
      subst h1
      subst h2
      simp [lookupKey]
    · have hk : ¬ k = p := by
        intro hkp
        exact (hkp ▸ hn.1) (List.mem_map.mpr ⟨(p, v), hmem, rfl⟩)
      simp only [lookupKey, if_neg hk]
      exact ih hn.2 hmem

/-! ## Walk and classification lemmas -/

theorem mem_walkFiles {t : Tree} {p : String} {c : List Nat} {r : Bool} :
    (p, c, r) ∈ walkFiles t ↔ (p, Entry.file c r) ∈ t := by
  simp only [walkFiles, List.mem_filterMap]
  constructor
  · rintro ⟨⟨q, e⟩, hm, he⟩
    cases e with
    | file c' r' =>
      simp only [Option.some.injEq, Prod.mk.injEq] at he
      obtain ⟨h1, h2, h3⟩ := he
      subst h1; subst h2; subst h3
      exact hm
    | dir => simp at he
  · intro hm
    exact ⟨(p, .file c r), hm, rfl⟩

theorem pathExists_of_mem {t : Tree} {p : String} {e : Entry}
    (h : (p, e) ∈ t) : pathExists t p = true := by
  simpa [pathExists, lookupEntry] using lookupKey_isSome_of_mem h

theorem classifyBaseline_eq (t : Tree) (l : List (String × FileRecord)) :
    classifyBaseline t l =
      ((l.filter (fun pe => pathExists t pe.1 &&
          !((calculate_hash t pe.1) == some pe.2.hash))).map Prod.fst,
       (l.filter (fun pe => !pathExists t pe.1)).map Prod.fst) := by
  induction l with
  | nil => rfl
  | cons pfd rest ih =>
    obtain ⟨q, fd⟩ := pfd
    by_cases hex : pathExists t q
    · by_cases hch : calculate_hash t q = some fd.hash
      · simp [classifyBaseline, ih, hex, hch]
      · simp [classifyBaseline, ih, hex, hch]
    · simp [classifyBaseline, ih, hex]

theorem mem_changed_iff {t : Tree} {l : List (String × FileRecord)}
    {p : String} :
    p ∈ (classifyBaseline t l).1 ↔
      ∃ fd, (p, fd) ∈ l ∧ pathExists t p = true ∧
        ¬ calculate_hash t p = some fd.hash := by
  rw [classifyBaseline_eq]
  simp only [List.mem_map, List.mem_filter, Bool.and_eq_true,
    Bool.not_eq_true', beq_eq_false_iff_ne, ne_eq]
  constructor
  · rintro ⟨⟨q, fd⟩, ⟨hm, hex, hch⟩, hq⟩
    subst hq
    exact ⟨fd, hm, hex, hch⟩
  · rintro ⟨fd, hm, hex, hch⟩
    exact ⟨(p, fd), ⟨hm, hex, hch⟩, rfl⟩

theorem mem_missing_iff {t : Tree} {l : List (String × FileRecord)}
    {p : String} :
    p ∈ (classifyBaseline t l).2 ↔
      (∃ fd, (p, fd) ∈ l) ∧ pathExists t p = false := by
  rw [classifyBaseline_eq]
  simp only [List.mem_map, List.mem_filter, Bool.not_eq_true']
  constructor
  · rintro ⟨⟨q, fd⟩, ⟨hm, hex⟩, hq⟩
    subst hq
    exact ⟨⟨fd, hm⟩, hex⟩
  · rintro ⟨⟨fd, hm⟩, hex⟩
    exact ⟨(p, fd), ⟨hm, hex⟩, rfl⟩

theorem mem_findNewFiles {t : Tree} {bf : List (String × FileRecord)}
    {p : String} :
    p ∈ findNewFiles t bf ↔
      (∃ c r, (p, Entry.file c r) ∈ t) ∧ lookupKey p bf = none := by
  simp only [findNewFiles, List.mem_filterMap]
  constructor
  · rintro ⟨⟨q, c, r⟩, hm, hf⟩
    by_cases hk : (lookupKey q bf).isSome
    · simp [hk] at hf
    · simp only [hk, Bool.false_eq_true, if_false, Option.some.injEq] at hf
      subst hf
      refine ⟨⟨c, r, mem_walkFiles.mp hm⟩, ?_⟩
      exact Option.not_isSome_iff_eq_none.mp hk
  · rintro ⟨⟨c, r, hm⟩, hk⟩
    exact ⟨(p, c, r), mem_walkFiles.mpr hm, by simp [hk]⟩

theorem pathExists_of_hash {t : Tree} {p : String} {h : String}
    (hc : calculate_hash t p = some h) : pathExists t p = true := by
  unfold calculate_hash at hc
  unfold pathExists
  cases he : lookupEntry t p with
  | none => rw [he] at hc; simp at hc
  | some e => simp

theorem isUnchanged_iff {t : Tree} {bf : List (String × FileRecord)}
    {p : String} :
    isUnchanged t bf p = true ↔
      ∃ fd, lookupKey p bf = some fd ∧ pathExists t p = true ∧
        calculate_hash t p = some fd.hash := by
  unfold isUnchanged
  cases h : lookupKey p bf with
  | none => simp
  | some fd => simp [h, Bool.and_eq_true, beq_iff_eq]

/-! ## Shape lemmas for the two operations -/

theorem create_baseline_eq (fs : FS) (bd : BaselineData) (dir now : String)
    (t : Tree) (ht : lookupDir fs dir = some t) (hd : dir ≠ "") :
    create_baseline fs bd dir now =
      ⟨false, some ⟨dir, now, baselineEntries t now, none⟩,
        .snap ⟨dir, now, baselineEntries t now, none⟩⟩ := by
  have hi : isdir fs dir = true := by simp [isdir, ht, hd]
  simp [create_baseline, hi, ht]

theorem verify_snap_eq (fs : FS) (s : Snapshot) (now : String) (t : Tree)
    (hd : s.directory ≠ "") (ht : lookupDir fs s.directory = some t) :
    verify_integrity fs (.snap s) now =
      ⟨none, some { s with last_checked := some now },
        some ⟨(classifyBaseline t s.files).1, findNewFiles t s.files,
              (classifyBaseline t s.files).2⟩,
        .snap { s with last_checked := some now }⟩ := by
  have hi : isdir fs s.directory = true := by simp [isdir, ht, hd]
  simp [verify_integrity, hi, ht, hd]

/-! ## Lemmas about the entries `create_baseline` stores -/

theorem mem_baselineEntries {t : Tree} {now p : String} {fd : FileRecord}
    (h : (p, fd) ∈ baselineEntries t now) :
    calculate_hash t p = some fd.hash ∧ fd.last_checked = now := by
  simp only [baselineEntries, List.mem_filterMap] at h
  obtain ⟨⟨q, c, r⟩, _, hf⟩ := h
  cases hc : calculate_hash t q with
  | none => rw [hc] at hf; simp at hf
  | some hsh =>
    rw [hc] at hf
    simp only [Option.some.injEq, Prod.mk.injEq] at hf
    obtain ⟨h1, h2⟩ := hf
    subst h1
    subst h2
    exact ⟨hc, rfl⟩

theorem baselineEntries_mem_of_file {t : Tree} (now : String) {p : String}
    {c : List Nat} (hm : (p, Entry.file c true) ∈ t)
    (hn : (t.map Prod.fst).Nodup) :
    (p, (⟨sha256hex c, now⟩ : FileRecord)) ∈ baselineEntries t now := by
  have hc : calculate_hash t p = some (sha256hex c) := by
    simp [calculate_hash, lookupEntry,
      lookupKey_eq_some_of_mem_nodup hn hm]
  simp only [baselineEntries, List.mem_filterMap]
  exact ⟨(p, c, true), mem_walkFiles.mpr hm, by simp [hc]⟩

theorem baselineEntries_all_readable {t : Tree} (now : String)
    (hn : (t.map Prod.fst).Nodup)
    (hall : ∀ p c r, (p, Entry.file c r) ∈ t → r = true) :
    baselineEntries t now =
      (walkFiles t).map (fun f => (f.1, (⟨sha256hex f.2.1, now⟩ : FileRecord))) := by
  unfold baselineEntries
  have hpt : ∀ x ∈ walkFiles t,
      (match calculate_hash t x.1 with
        | some h => some (x.1, (⟨h, now⟩ : FileRecord))
        | none => none) =
      some (x.1, (⟨sha256hex x.2.1, now⟩ : FileRecord)) := by
    rintro ⟨p, c, r⟩ hm
    have hr := hall p c r (mem_walkFiles.mp hm)
    subst hr
    have he : lookupEntry t p = some (.file c true) :=
      lookupKey_eq_some_of_mem_nodup hn (mem_walkFiles.mp hm)
    simp [calculate_hash, he]
  rw [List.filterMap_congr hpt]
  exact List.filterMap_eq_map _ ▸ rfl

theorem walkFiles_keys_sublist (t : Tree) :
    List.Sublist ((walkFiles t).map (fun f => f.1)) (t.map Prod.fst) := by
  induction t with
  | nil => simp [walkFiles]
  | cons pe rest ih =>
    obtain ⟨p, e⟩ := pe
    cases e with
    | file c r => simpa [walkFiles] using ih.cons₂ p
    | dir => simpa [walkFiles] using ih.cons p

/-! ## Claim theorems -/

/-- C7: for every path that is not an existing directory, `create_baseline`
reports the invalid-directory error and aborts: nothing is written to the
baseline file and the in-memory `baseline_data` is unchanged. -/
theorem create_baseline_invalid_dir_no_write (fs : FS) (bd : BaselineData)
    (dir now : String) (h : isdir fs dir = false) :
    create_baseline fs bd dir now = ⟨true, none, bd⟩ := by
  simp [create_baseline, h]

theorem create_baseline_invalid_dir_no_write_witness :
    isdir [] "nope" = false ∧
    create_baseline [] (.snap ⟨"d", "t0", [("a", ⟨"h", "t0"⟩)], none⟩)
        "nope" "t1" =
      ⟨true, none, .snap ⟨"d", "t0", [("a", ⟨"h", "t0"⟩)], none⟩⟩ :=
  ⟨rfl, create_baseline_invalid_dir_no_write []
    (.snap ⟨"d", "t0", [("a", ⟨"h", "t0"⟩)], none⟩) "nope" "t1" rfl⟩

/-- C10: whenever `verify_integrity` aborts early (NoBaseline or
InvalidDirectory), it returns `None`, updates no timestamp (the in-memory
data is exactly the input) and writes nothing; the classification
dictionary is returned only when no abort happened, and then a save also
happened. -/
theorem verify_abort_returns_none (fs : FS) (bd : BaselineData)
    (now : String) :
    (∀ e, (verify_integrity fs bd now).error = some e →
      (verify_integrity fs bd now).result = none ∧
      (verify_integrity fs bd now).saved = none ∧
      (verify_integrity fs bd now).finalData = bd) ∧
    (∀ r, (verify_integrity fs bd now).result = some r →
      (verify_integrity fs bd now).error = none ∧
      (verify_integrity fs bd now).saved ≠ none) := by
  cases bd with
  | empty => simp [verify_integrity]
  | snap s =>
    by_cases hc : (s.directory == "" || !isdir fs s.directory) = true
    · simp [verify_integrity, hc]
    · simp [verify_integrity, hc]

theorem verify_abort_returns_none_witness :
    (verify_integrity [] .empty "t1").error = some .noBaseline ∧
    (verify_integrity [] .empty "t1").result = none ∧
    (verify_integrity [] .empty "t1").saved = none ∧
    (verify_integrity [] .empty "t1").finalData = .empty :=
  ⟨rfl, (verify_abort_returns_none [] .empty "t1").1 .noBaseline rfl⟩

/-- C4 counterexample: a snapshot that does have a root directory recorded
(`"gone"`) and a non-empty entry map, for which `verify_integrity` still
performs no comparison: it aborts with the invalid-directory message and
returns `None`, refuting "for every snapshot with a root directory,
comparison proceeds". -/
theorem verify_stale_root_no_comparison :
    verify_integrity [] (.snap ⟨"gone", "t0", [("a", ⟨"h", "t0"⟩)], none⟩)
        "t1" =
      ⟨some (.invalidDirectory "gone"), none, none,
        .snap ⟨"gone", "t0", [("a", ⟨"h", "t0"⟩)], none⟩⟩ := rfl

/-- C4 (amended): on an empty `baseline_data` (the state after a missing or
malformed baseline file) `verify_integrity` reports NoBaseline, performs
no comparison and returns no lists; comparison proceeds for every snapshot
whose recorded root directory is non-empty and still an existing
directory. -/
theorem verify_noBaseline_and_proceed (fs : FS) (s : Snapshot)
    (now : String) :
    verify_integrity fs .empty now = ⟨some .noBaseline, none, none, .empty⟩ ∧
    (s.directory ≠ "" → isdir fs s.directory = true →
      (verify_integrity fs (.snap s) now).error = none ∧
      ∃ r, (verify_integrity fs (.snap s) now).result = some r) := by
  refine ⟨rfl, fun hd hi => ?_⟩
  have hc : (s.directory == "" || !isdir fs s.directory) = false := by
    simp [hi, hd]
  simp [verify_integrity, hc]

theorem verify_noBaseline_and_proceed_witness :
    (("d" : String) ≠ "" ∧ isdir [("d", ([] : Tree))] "d" = true) ∧
    (verify_integrity [("d", ([] : Tree))] .empty "t1" =
      ⟨some .noBaseline, none, none, .empty⟩ ∧
    ((verify_integrity [("d", ([] : Tree))]
        (.snap ⟨"d", "t0", [], none⟩) "t1").error = none ∧
      ∃ r, (verify_integrity [("d", ([] : Tree))]
        (.snap ⟨"d", "t0", [], none⟩) "t1").result = some r)) :=
  ⟨⟨by decide, rfl⟩,
   (verify_noBaseline_and_proceed [("d", [])] ⟨"d", "t0", [], none⟩ "t1").1,
   (verify_noBaseline_and_proceed [("d", [])] ⟨"d", "t0", [], none⟩ "t1").2
     (by decide) rfl⟩

/-- C6: when `verify_integrity` runs to completion, the snapshot it saves
(and keeps in memory) differs from the loaded one only in the top-level
`last_checked` timestamp: the `files` map — hence every per-entry
`last_checked`, every digest and every key — and the `directory` and
`timestamp` fields are unchanged. -/
theorem verify_frame_only_last_checked (fs : FS) (s : Snapshot)
    (now : String) (s' : Snapshot)
    (h : (verify_integrity fs (.snap s) now).saved = some s') :
    s'.directory = s.directory ∧ s'.timestamp = s.timestamp ∧
    s'.files = s.files ∧ s'.last_checked = some now ∧
    (verify_integrity fs (.snap s) now).finalData = .snap s' := by
  by_cases hc : (s.directory == "" || !isdir fs s.directory) = true
  · simp [verify_integrity, hc] at h
  · simp only [verify_integrity, hc, Bool.false_eq_true, if_false,
      Option.some.injEq] at h
    subst h
    refine ⟨rfl, rfl, rfl, rfl, ?_⟩
    simp [verify_integrity, hc]

theorem verify_frame_only_last_checked_witness :
    (verify_integrity [("d", ([] : Tree))]
        (.snap ⟨"d", "t0", [], none⟩) "t1").saved =
      some ⟨"d", "t0", [], some "t1"⟩ ∧
    (⟨"d", "t0", [], some "t1"⟩ : Snapshot).files =
      (⟨"d", "t0", [], none⟩ : Snapshot).files ∧
    (⟨"d", "t0", [], some "t1"⟩ : Snapshot).last_checked = some "t1" :=
  ⟨rfl,
   (verify_frame_only_last_checked [("d", [])] ⟨"d", "t0", [], none⟩ "t1"
     ⟨"d", "t0", [], some "t1"⟩ rfl).2.2.1,
   (verify_frame_only_last_checked [("d", [])] ⟨"d", "t0", [], none⟩ "t1"
     ⟨"d", "t0", [], some "t1"⟩ rfl).2.2.2.1⟩

/-- C3 counterexample: a baseline file containing perfectly parseable JSON
of an unexpected shape — the array `["x"]` — makes `verify_integrity`
raise an uncaught `AttributeError` (a truthy non-dict has no `.get`),
refuting "this holds for any baseline file containing arbitrary parseable
JSON of any shape". -/
theorem verifyJson_array_baseline_raises :
    verifyJson [] (load_baseline (.content (.arr [.str "x"]))) "t1" =
      .error .attributeError := rfl

/-- C3 (amended): under the spec's listed misuse — nonexistent target
path, missing baseline file, or baseline file that fails to parse —
`create_baseline` and `verify_integrity` complete without an uncaught
exception, surfacing the failure as a console message only; the guarantee
does not extend to parseable baseline JSON of arbitrary shape. -/
theorem verify_misuse_no_uncaught_exception (fs : FS) (bf : BaselineFile)
    (now dir : String) (bd : BaselineData)
    (h : bf = .missing ∨ bf = .corrupt) (hdir : isdir fs dir = false) :
    verifyJson fs (load_baseline bf) now =
      .ok ⟨some .noBaseline, none, none, .obj []⟩ ∧
    create_baseline fs bd dir now = ⟨true, none, bd⟩ := by
  constructor
  · rcases h with h | h <;> subst h <;> rfl
  · simp [create_baseline, hdir]

theorem verify_misuse_no_uncaught_exception_witness :
    ((BaselineFile.missing = .missing ∨ BaselineFile.missing = .corrupt) ∧
      isdir [] "nope" = false) ∧
    verifyJson [] (load_baseline .missing) "t1" =
      .ok ⟨some .noBaseline, none, none, .obj []⟩ ∧
    create_baseline [] .empty "nope" "t1" = ⟨true, none, .empty⟩ :=
  ⟨⟨Or.inl rfl, rfl⟩,
   verify_misuse_no_uncaught_exception [] .missing "t1" "nope" .empty
     (Or.inl rfl) rfl⟩

/-- C2: a baseline entry whose path still exists on disk but refers to an
unreadable file (so `calculate_hash` returns the `None` sentinel, which
never equals the stored hex digest) is reported in `changed_files` and
never in `missing_files`. -/
theorem verify_unreadable_reported_changed (fs : FS) (s : Snapshot)
    (now : String) (t : Tree) (rel : String) (c : List Nat)
    (fd : FileRecord) (hd : s.directory ≠ "")
    (ht : lookupDir fs s.directory = some t) (hm : (rel, fd) ∈ s.files)
    (he : lookupEntry t rel = some (.file c false)) :
    ∃ r, (verify_integrity fs (.snap s) now).result = some r ∧
      rel ∈ r.changed_files ∧ rel ∉ r.missing_files := by
  rw [verify_snap_eq fs s now t hd ht]
  refine ⟨_, rfl, ?_, ?_⟩
  · exact mem_changed_iff.mpr
      ⟨fd, hm, by simp [pathExists, he], by simp [calculate_hash, he]⟩
  · intro hmem
    have := (mem_missing_iff.mp hmem).2
    simp [pathExists, he] at this

theorem verify_unreadable_reported_changed_witness :
    (lookupDir mixedFS "d" = some mixedTree ∧
      ("u", (⟨"deadbeef", "t0"⟩ : FileRecord)) ∈
        [("u", (⟨"deadbeef", "t0"⟩ : FileRecord))] ∧
      lookupEntry mixedTree "u" = some (.file [1] false)) ∧
    ∃ r, (verify_integrity mixedFS
        (.snap ⟨"d", "t0", [("u", ⟨"deadbeef", "t0"⟩)], none⟩) "t1").result =
        some r ∧
      "u" ∈ r.changed_files ∧ "u" ∉ r.missing_files :=
  ⟨⟨rfl, List.mem_singleton.mpr rfl, rfl⟩,
   verify_unreadable_reported_changed mixedFS
     ⟨"d", "t0", [("u", ⟨"deadbeef", "t0"⟩)], none⟩ "t1" mixedTree "u" [1]
     ⟨"deadbeef", "t0"⟩ (by decide) rfl (List.mem_singleton.mpr rfl) rfl⟩

/-- C9: a baseline entry whose path now refers to a directory passes the
existence check but its digest computation fails (opening a directory for
reading raises, caught as `IOError`), so the entry is classified as
changed, not missing. -/
theorem verify_dir_entry_reported_changed (fs : FS) (s : Snapshot)
    (now : String) (t : Tree) (rel : String) (fd : FileRecord)
    (hd : s.directory ≠ "") (ht : lookupDir fs s.directory = some t)
    (hm : (rel, fd) ∈ s.files) (he : lookupEntry t rel = some .dir) :
    ∃ r, (verify_integrity fs (.snap s) now).result = some r ∧
      rel ∈ r.changed_files ∧ rel ∉ r.missing_files := by
  rw [verify_snap_eq fs s now t hd ht]
  refine ⟨_, rfl, ?_, ?_⟩
  · exact mem_changed_iff.mpr
      ⟨fd, hm, by simp [pathExists, he], by simp [calculate_hash, he]⟩
  · intro hmem
    have := (mem_missing_iff.mp hmem).2
    simp [pathExists, he] at this

theorem verify_dir_entry_reported_changed_witness :
    (lookupDir mixedFS "d" = some mixedTree ∧
      ("sub", (⟨"abcd", "t0"⟩ : FileRecord)) ∈
        [("sub", (⟨"abcd", "t0"⟩ : FileRecord))] ∧
      lookupEntry mixedTree "sub" = some .dir) ∧
    ∃ r, (verify_integrity mixedFS
        (.snap ⟨"d", "t0", [("sub", ⟨"abcd", "t0"⟩)], none⟩) "t1").result =
        some r ∧
      "sub" ∈ r.changed_files ∧ "sub" ∉ r.missing_files :=
  ⟨⟨rfl, List.mem_singleton.mpr rfl, rfl⟩,
   verify_dir_entry_reported_changed mixedFS
     ⟨"d", "t0", [("sub", ⟨"abcd", "t0"⟩)], none⟩ "t1" mixedTree "sub"
     ⟨"abcd", "t0"⟩ (by decide) rfl (List.mem_singleton.mpr rfl) rfl⟩

/-- C5: on a directory whose files are all readable, `create_baseline`
saves a snapshot whose `directory` field is the input path, with exactly
one entry per regular file keyed by its relative path, storing the
lowercase hex SHA-256 digest of that file's content. -/
theorem create_baseline_entries_correct (fs : FS) (bd : BaselineData)
    (dir now : String) (t : Tree) (ht : lookupDir fs dir = some t)
    (hd : dir ≠ "") (hnt : (t.map Prod.fst).Nodup)
    (hall : ∀ p c r, (p, Entry.file c r) ∈ t → r = true) :
    ∃ s, (create_baseline fs bd dir now).saved = some s ∧
      s.directory = dir ∧
      s.files.map Prod.fst = (walkFiles t).map (fun f => f.1) ∧
      ∀ p c r, (p, Entry.file c r) ∈ t →
        lookupKey p s.files = some ⟨sha256hex c, now⟩ := by
  rw [create_baseline_eq fs bd dir now t ht hd]
  have hE := baselineEntries_all_readable now hnt hall
  refine ⟨_, rfl, rfl, ?_, ?_⟩
  · rw [hE, List.map_map]
    rfl
  · intro p c r hm
    have hr := hall p c r hm
    subst hr
    have hkeys : ((baselineEntries t now).map Prod.fst).Nodup := by
      rw [hE, List.map_map]
      exact List.Nodup.sublist (walkFiles_keys_sublist t) hnt
    exact lookupKey_eq_some_of_mem_nodup hkeys
      (baselineEntries_mem_of_file now hm hnt)

theorem create_baseline_entries_correct_witness :
    (lookupDir helloWorldFS "d" = some helloWorldTree ∧
      (helloWorldTree.map Prod.fst).Nodup) ∧
    (∃ s, (create_baseline helloWorldFS .empty "d" "t0").saved = some s ∧
      s.directory = "d" ∧
      s.files.map Prod.fst = (walkFiles helloWorldTree).map (fun f => f.1) ∧
      ∀ p c r, (p, Entry.file c r) ∈ helloWorldTree →
        lookupKey p s.files = some ⟨sha256hex c, "t0"⟩) ∧
    sha256hex [104, 101, 108, 108, 111] =
      "2cf24dba5fb0a30e26e83b2ac5b9e29e1b161e5c1fa7425e73043362938b9824" ∧
    sha256hex [119, 111, 114, 108, 100] =
      "486ea46224d1bb4fb680f34f7c9ad96a8f24ec88be73ea8e5a6c65260e9cb8a7" :=
  ⟨⟨rfl, by decide⟩,
   create_baseline_entries_correct helloWorldFS .empty "d" "t0"
     helloWorldTree rfl (by decide) (by decide)
     (by intro p c r hm; simp [helloWorldTree] at hm; tauto),
   by decide, by decide⟩

/-- C8 counterexample: a directory containing a single unreadable file.
`create_baseline` silently excludes it (its digest fails), so the
immediately following `verify_integrity` on the untouched tree reports it
as a new file — the three lists are not all empty, refuting the claim for
arbitrary directories. -/
theorem verify_after_create_unreadable_not_empty :
    (create_baseline [("d", [("f", .file [] false)])] .empty "d"
        "t0").saved = some ⟨"d", "t0", [], none⟩ ∧
    (verify_integrity [("d", [("f", .file [] false)])]
        (.snap ⟨"d", "t0", [], none⟩) "t1").result =
      some ⟨[], ["f"], []⟩ ∧
    (["f"] : List String) ≠ [] :=
  ⟨rfl, rfl, by decide⟩

/-- C8 (amended): for every directory all of whose files are readable
(so none is silently excluded from the baseline), running
`verify_integrity` immediately after `create_baseline` with no
intervening change of the tree returns empty changed, new and missing
lists. -/
theorem verify_after_create_empty (fs : FS) (bd : BaselineData)
    (dir now now2 : String) (t : Tree) (ht : lookupDir fs dir = some t)
    (hd : dir ≠ "") (hnt : (t.map Prod.fst).Nodup)
    (hall : ∀ p c r, (p, Entry.file c r) ∈ t → r = true) :
    ∃ s, (create_baseline fs bd dir now).saved = some s ∧
      (verify_integrity fs (.snap s) now2).result = some ⟨[], [], []⟩ := by
  rw [create_baseline_eq fs bd dir now t ht hd]
  refine ⟨_, rfl, ?_⟩
  rw [verify_snap_eq fs _ now2 t hd ht]
  have hC : (classifyBaseline t (baselineEntries t now)).1 = [] := by
    rw [List.eq_nil_iff_forall_not_mem]
    intro p hp
    obtain ⟨fd, hmem, _, hne⟩ := mem_changed_iff.mp hp
    exact hne (mem_baselineEntries hmem).1
  have hM : (classifyBaseline t (baselineEntries t now)).2 = [] := by
    rw [List.eq_nil_iff_forall_not_mem]
    intro p hp
    obtain ⟨⟨fd, hmem⟩, hex⟩ := mem_missing_iff.mp hp
    rw [pathExists_of_hash (mem_baselineEntries hmem).1] at hex
    exact Bool.noConfusion hex
  have hN : findNewFiles t (baselineEntries t now) = [] := by
    rw [List.eq_nil_iff_forall_not_mem]
    intro p hp
    obtain ⟨⟨c, r, hmem⟩, hk⟩ := mem_findNewFiles.mp hp
    have hr := hall p c r hmem
    subst hr
    have hs := lookupKey_isSome_of_mem
      (baselineEntries_mem_of_file now hmem hnt)
    rw [hk] at hs
    exact Bool.noConfusion hs
  simp [hC, hM, hN]

theorem verify_after_create_empty_witness :
    (lookupDir helloWorldFS "d" = some helloWorldTree ∧
      (helloWorldTree.map Prod.fst).Nodup) ∧
    ∃ s, (create_baseline helloWorldFS .empty "d" "t0").saved = some s ∧
      (verify_integrity helloWorldFS (.snap s) "t1").result =
        some ⟨[], [], []⟩ :=
  ⟨⟨rfl, by decide⟩,
   verify_after_create_empty helloWorldFS .empty "d" "t0" "t1"
     helloWorldTree rfl (by decide) (by decide)
     (by intro p c r hm; simp [helloWorldTree] at hm; tauto)⟩

/-- C1: when `verify_integrity` runs to completion, its three returned
lists are pairwise disjoint; every on-disk file is in exactly one of
changed / new / unchanged, and every baseline entry is in exactly one of
missing / changed / unchanged (unchanged being the semantic remainder
`isUnchanged`: recorded, still present, digest equal). -/
theorem verify_classification_partition (fs : FS) (s : Snapshot)
    (now : String) (t : Tree) (hd : s.directory ≠ "")
    (ht : lookupDir fs s.directory = some t)
    (hns : (s.files.map Prod.fst).Nodup) (r : VerifyResult)
    (hr : (verify_integrity fs (.snap s) now).result = some r) :
    (∀ p, ¬(p ∈ r.changed_files ∧ p ∈ r.new_files)) ∧
    (∀ p, ¬(p ∈ r.changed_files ∧ p ∈ r.missing_files)) ∧
    (∀ p, ¬(p ∈ r.new_files ∧ p ∈ r.missing_files)) ∧
    (∀ p c rd, (p, Entry.file c rd) ∈ t →
      ExactlyOne (p ∈ r.changed_files) (p ∈ r.new_files)
        (isUnchanged t s.files p = true)) ∧
    (∀ p fd, (p, fd) ∈ s.files →
      ExactlyOne (p ∈ r.missing_files) (p ∈ r.changed_files)
        (isUnchanged t s.files p = true)) := by
  rw [verify_snap_eq fs s now t hd ht] at hr
  simp only [Option.some.injEq] at hr
  subst hr
  refine ⟨?_, ?_, ?_, ?_, ?_⟩
  · rintro p ⟨hc, hn⟩
    obtain ⟨fd, hmem, -, -⟩ := mem_changed_iff.mp hc
    obtain ⟨-, hk⟩ := mem_findNewFiles.mp hn
    have hs := lookupKey_isSome_of_mem hmem
    rw [hk] at hs
    exact Bool.noConfusion hs
  · rintro p ⟨hc, hm⟩
    obtain ⟨fd, -, hex, -⟩ := mem_changed_iff.mp hc
    obtain ⟨-, hnex⟩ := mem_missing_iff.mp hm
    rw [hex] at hnex
    exact Bool.noConfusion hnex
  · rintro p ⟨hn, hm⟩
    obtain ⟨-, hk⟩ := mem_findNewFiles.mp hn
    obtain ⟨⟨fd, hmem⟩, -⟩ := mem_missing_iff.mp hm
    have hs := lookupKey_isSome_of_mem hmem
    rw [hk] at hs
    exact Bool.noConfusion hs
  · intro p c rd hm
    have hex : pathExists t p = true :=
      pathExists_of_mem hm
    cases hk : lookupKey p s.files with
    | none =>
      have hB : p ∈ findNewFiles t s.files :=
        mem_findNewFiles.mpr ⟨⟨c, rd, hm⟩, hk⟩
      have hnA : ¬ p ∈ (classifyBaseline t s.files).1 := by
        intro hc
        obtain ⟨fd, hmem, -, -⟩ := mem_changed_iff.mp hc
        have hs := lookupKey_isSome_of_mem hmem
        rw [hk] at hs
        exact Bool.noConfusion hs
      have hnU : ¬ isUnchanged t s.files p = true := by
        simp [isUnchanged, hk]
      exact ⟨Or.inr (Or.inl hB), fun h => hnA h.1, fun h => hnA h.1,
        fun h => hnU h.2⟩
    | some fd =>
      have hmem := mem_of_lookupKey_eq_some hk
      have hnB : ¬ p ∈ findNewFiles t s.files := by
        intro hn
        obtain ⟨-, hk2⟩ := mem_findNewFiles.mp hn
        rw [hk] at hk2
        exact Option.noConfusion hk2
      by_cases hch : calculate_hash t p = some fd.hash
      · have hU : isUnchanged t s.files p = true := by
          simp [isUnchanged, hk, hex, hch]
        have hnA : ¬ p ∈ (classifyBaseline t s.files).1 := by
          intro hc
          obtain ⟨fd2, hmem2, -, hne2⟩ := mem_changed_iff.mp hc
          rw [lookupKey_eq_some_of_mem_nodup hns hmem2] at hk
          cases hk
          exact hne2 hch
        exact ⟨Or.inr (Or.inr hU), fun h => hnA h.1, fun h => hnA h.1,
          fun h => hnB h.1⟩
      · have hA : p ∈ (classifyBaseline t s.files).1 :=
          mem_changed_iff.mpr ⟨fd, hmem, hex, hch⟩
        have hnU : ¬ isUnchanged t s.files p = true := by
          intro hu
          obtain ⟨fd2, hk2, -, hch2⟩ := isUnchanged_iff.mp hu
          rw [hk] at hk2
          cases hk2
          exact hch hch2
        exact ⟨Or.inl hA, fun h => hnB h.2, fun h => hnU h.2,
          fun h => hnB h.1⟩
  · intro p fd hmemf
    have hk : lookupKey p s.files = some fd :=
      lookupKey_eq_some_of_mem_nodup hns hmemf
    cases hex : pathExists t p with
    | false =>
      have hM : p ∈ (classifyBaseline t s.files).2 :=
        mem_missing_iff.mpr ⟨⟨fd, hmemf⟩, hex⟩
      have hnA : ¬ p ∈ (classifyBaseline t s.files).1 := by
        intro hc
        obtain ⟨fd2, -, hex2, -⟩ := mem_changed_iff.mp hc
        rw [hex] at hex2
        exact Bool.noConfusion hex2
      have hnU : ¬ isUnchanged t s.files p = true := by
        intro hu
        obtain ⟨fd2, -, hex2, -⟩ := isUnchanged_iff.mp hu
        rw [hex] at hex2
        exact Bool.noConfusion hex2
      exact ⟨Or.inl hM, fun h => hnA h.2, fun h => hnU h.2,
        fun h => hnA h.1⟩
    | true =>
      have hnM : ¬ p ∈ (classifyBaseline t s.files).2 := by
        intro hm
        obtain ⟨-, hex2⟩ := mem_missing_iff.mp hm
        rw [hex] at hex2
        exact Bool.noConfusion hex2
      by_cases hch : calculate_hash t p = some fd.hash
      · have hU : isUnchanged t s.files p = true := by
          simp [isUnchanged, hk, hex, hch]
        have hnA : ¬ p ∈ (classifyBaseline t s.files).1 := by
          intro hc
          obtain ⟨fd2, hmem2, -, hne2⟩ := mem_changed_iff.mp hc
          rw [lookupKey_eq_some_of_mem_nodup hns hmem2] at hk
          cases hk
          exact hne2 hch
        exact ⟨Or.inr (Or.inr hU), fun h => hnM h.1, fun h => hnM h.1,
          fun h => hnA h.1⟩
      · have hA : p ∈ (classifyBaseline t s.files).1 :=
          mem_changed_iff.mpr ⟨fd, hmemf, hex, hch⟩
        have hnU : ¬ isUnchanged t s.files p = true := by
          intro hu
          obtain ⟨fd2, hk2, -, hch2⟩ := isUnchanged_iff.mp hu
          rw [hk] at hk2
          cases hk2
          exact hch hch2
        exact ⟨Or.inr (Or.inl hA), fun h => hnM h.1, fun h => hnM h.1,
          fun h => hnU h.2⟩

theorem verify_classification_partition_witness :
    (partSnap.directory ≠ "" ∧
      lookupDir partFS partSnap.directory = some partTree ∧
      (partSnap.files.map Prod.fst).Nodup ∧
      (verify_integrity partFS (.snap partSnap) "t1").result =
        some ⟨["u"], ["n"], ["gone"]⟩) ∧
    (∀ p fd, (p, fd) ∈ partSnap.files →
      ExactlyOne (p ∈ (["gone"] : List String)) (p ∈ (["u"] : List String))
        (isUnchanged partTree partSnap.files p = true)) :=
  ⟨⟨by decide, rfl, by decide, by rfl⟩,
   (verify_classification_partition partFS partSnap "t1" partTree
     (by decide) rfl (by decide)
     ⟨["u"], ["n"], ["gone"]⟩ (by rfl)).2.2.2.2⟩

end FIC
